import Mathlib

/-
Verification development for the LangChain RAG chatbot repository.

The Python sources under src/ are embedded shallowly:
 - src/src/rag.py        : RAG retriever state, mode switching, the
   retrieval/rerank stage of generate, vector-store initialisation, and
   the incremental sync entry point add_documents.
 - src/src/models.py     : the reranker singleton (top_n parameter).
 - src/src/data_loader.py: document loading and chunk splitting.
 - src/src/database.py   : the chat-history store.
 - src/src/chat_bot.py   : ChatBot.chat.

Library code the repository calls (faiss / langchain search, the
record-manager index pass, trim_messages, the recursive splitter) is not
in src/; those parts are modelled from the spec, as marked in the doc
comments.  Text is modelled as its character list where the splitting
algorithm needs it; similarity scores are integers; timestamps and ids
are explicit parameters.
-/

/-- A chunk/document as used by the pipeline: page content (its character
list) plus the `source` metadata identifier set by the loader. -/
structure Document where
  page_content : List Char
  source : Nat
deriving DecidableEq, Repr

/-- The two retriever configurations built by `RAG._create_retriever`
(src/src/rag.py lines 94-103): `mmr` with kwargs `{k, fetch_k}` or
`similarity` with kwarg `{k}`. -/
inductive RetrieverConfig where
  | mmr (k fetch_k : Nat)
  | similarity (k : Nat)
deriving DecidableEq, Repr

/-- The retrieval-relevant state of a `RAG` instance
(src/src/rag.py lines 18-48): parameters `k`, `fetch_k`, the
`more_diverse` flag, and the currently built retriever. -/
structure RagState where
  k : Nat
  fetch_k : Nat
  more_diverse : Bool
  retriever : RetrieverConfig
deriving DecidableEq, Repr

/-- `RAG._create_retriever` (src/src/rag.py lines 89-103): rebuilds the
retriever from the current `more_diverse` flag; MMR search with
`{k, fetch_k}` when diverse, else similarity search with `{k: fetch_k}`. -/
def create_retriever (s : RagState) : RagState :=
  if s.more_diverse then
    { s with retriever := RetrieverConfig.mmr s.k s.fetch_k }
  else
    { s with retriever := RetrieverConfig.similarity s.fetch_k }

/-- `RAG.__init__` (src/src/rag.py lines 18-48) as far as retrieval state
is concerned: `more_diverse` starts True and `_create_retriever` is
called; the placeholder retriever value is immediately overwritten. -/
def rag_init (k fetch_k : Nat) : RagState :=
  create_retriever
    { k := k, fetch_k := fetch_k, more_diverse := true,
      retriever := RetrieverConfig.similarity 0 }

/-- `RAG.change_type_of_search` (src/src/rag.py lines 175-183): set the
flag, then rebuild the retriever immediately. -/
def change_type_of_search (s : RagState) (more_diverse : Bool) : RagState :=
  create_retriever { s with more_diverse := more_diverse }

/-- Default constructor arguments of `RAG.__init__`
(src/src/rag.py lines 18-22): `k = 3`, `fetch_k = 10`. -/
def default_k : Nat := 3

/-- Default `fetch_k` of `RAG.__init__` (src/src/rag.py line 21). -/
def default_fetch_k : Nat := 10

/-- `top_n` of the process-wide reranker singleton: `get_reranker` has
default `top_n = 5` (src/src/models.py line 46) and the singleton is
built with no argument (src/src/models.py line 72). -/
def reranker_top_n : Nat := 5

/-- Modelled from the spec (4.2): similarity search returns the `k`
entries with highest similarity, ranked descending.  The faiss/langchain
search itself is library code not in src/; the store is represented as
the entry list already ranked for the query. -/
def similarity_search (store : List Document) (k : Nat) : List Document :=
  store.take k

/-- Maximum similarity of `c` to any already-selected document
(0 on the empty list; guarded by `mmrScore`). -/
def bestSim (sim : Document → Document → Int) (c : Document) :
    List Document → Int
  | [] => 0
  | [d] => sim c d
  | d :: ds => max (sim c d) (bestSim sim c ds)

/-- Modelled from the spec (4.2): the MMR objective
`similarity(candidate, query) - similarity(candidate, nearest
already-selected)`; plain query similarity while nothing is selected. -/
def mmrScore (qsim : Document → Int) (sim : Document → Document → Int)
    (selected : List Document) (c : Document) : Int :=
  match selected with
  | [] => qsim c
  | _ :: _ => qsim c - bestSim sim c selected

/-- First maximiser of `f` in the list (ties broken by earlier
position). -/
def argmaxBy (f : Document → Int) : List Document → Option Document
  | [] => none
  | c :: cs =>
    match argmaxBy f cs with
    | none => some c
    | some b => if f c < f b then some b else some c

/-- Greedy MMR selection loop: repeatedly pick the candidate with the
best marginal-relevance score. -/
def mmrGo (qsim : Document → Int) (sim : Document → Document → Int) :
    Nat → List Document → List Document → List Document
  | 0, _, _ => []
  | n + 1, selected, cands =>
    match argmaxBy (mmrScore qsim sim selected) cands with
    | none => []
    | some c => c :: mmrGo qsim sim n (c :: selected) (cands.erase c)

/-- Modelled from the spec (4.2): MMR search (library code not in src/)
retrieves the `fetch_k` nearest entries, then greedily selects `k` of
them maximising marginal relevance. -/
def mmr_search (qsim : Document → Int) (sim : Document → Document → Int)
    (store : List Document) (k fetch_k : Nat) : List Document :=
  mmrGo qsim sim k [] (store.take fetch_k)

/-- `retriever.invoke` as configured by `_create_retriever`: dispatch on
the search type. -/
def retrieve (qsim : Document → Int) (sim : Document → Document → Int)
    (store : List Document) : RetrieverConfig → List Document
  | RetrieverConfig.mmr k fetch_k => mmr_search qsim sim store k fetch_k
  | RetrieverConfig.similarity k => similarity_search store k

/-- Stable insertion into a score-descending list. -/
def insertByScore (score : Document → Int) (d : Document) :
    List Document → List Document
  | [] => [d]
  | e :: es =>
    if score d < score e then e :: insertByScore score d es
    else d :: e :: es

/-- Stable sort by descending score. -/
def sortByScore (score : Document → Int) : List Document → List Document
  | [] => []
  | d :: ds => insertByScore score d (sortByScore score ds)

/-- Modelled from the spec (4.6): `CrossEncoderReranker.compress_documents`
(library code not in src/) scores each candidate and returns the top
`top_n` by descending score. -/
def compress_documents (score : Document → Int) (top_n : Nat)
    (docs : List Document) : List Document :=
  (sortByScore score docs).take top_n

/-- Outcome of the retrieval stage of one `RAG.generate` call:
the candidates returned by the retriever, the final document list
handed to answer composition, and whether the reranker ran. -/
structure GenRetrieval where
  candidates : List Document
  final : List Document
  rerank_invoked : Bool
deriving DecidableEq, Repr

/-- The retrieval/rerank stage of `RAG.generate`
(src/src/rag.py lines 198-201): `docs = retriever.invoke(...)`, then
`if not more_diverse: docs = reranker.compress_documents(docs, ...)`.
The reranker singleton has `top_n = reranker_top_n`. -/
def generate_docs (s : RagState) (qsim : Document → Int)
    (sim : Document → Document → Int) (score : Document → Int)
    (store : List Document) : GenRetrieval :=
  let docs := retrieve qsim sim store s.retriever
  if s.more_diverse then
    { candidates := docs, final := docs, rerank_invoked := false }
  else
    { candidates := docs,
      final := compress_documents score reranker_top_n docs,
      rerank_invoked := true }

/-- The persisted FAISS store as the claims see it: an index
dimensionality plus the docstore entry list. -/
structure VectorStore where
  dimension : Nat
  entries : List Document
deriving DecidableEq, Repr

/-- The fixed probe string embedded by `_init_vector_store`
(src/src/rag.py line 77). -/
def dummyQuery : String := "__dummy__"

/-- A fresh empty store of the given dimensionality
(src/src/rag.py lines 79-86: `IndexFlatIP(dimension)` plus an empty
`InMemoryDocstore`). -/
def emptyStore (dim : Nat) : VectorStore :=
  { dimension := dim, entries := [] }

/-- `RAG._init_vector_store` (src/src/rag.py lines 65-87).  The disk
state is an `Option VectorStore`: `some` is a persisted store that
`FAISS.load_local` deserialises, `none` is any load failure (missing,
corrupt, incompatible).  On failure the code embeds the probe string,
builds an empty index of the embedding's dimensionality, and calls
`save_local`.  Result: the in-memory store and the disk state after. -/
def init_vector_store (embed : String → List Int)
    (disk : Option VectorStore) : VectorStore × Option VectorStore :=
  match disk with
  | some vs => (vs, some vs)
  | none =>
    let vs := emptyStore (embed dummyQuery).length
    (vs, some vs)

/-- The record-manager key of a chunk, modelled from the spec (4.3 step
1): a stable identity from the chunk's `source` plus a content hash; the
hash is modelled by the content itself. -/
def keyOf (d : Document) : Nat × List Char :=
  (d.source, d.page_content)

/-- State shared by the sync engine: the record-manager key set, the
vector-store entries, and the persisted on-disk copy of the entries. -/
structure IndexState where
  records : List (Nat × List Char)
  entries : List Document
  persisted : List Document
deriving DecidableEq, Repr

/-- Counters of one sync pass: `num_added` also counts embedding calls
(each added chunk is embedded exactly once), `num_deleted` counts
deleted entries. -/
structure SyncStats where
  num_added : Nat
  num_deleted : Nat
deriving DecidableEq, Repr

/-- Modelled from the spec (4.3 step 2): the add phase of
`langchain.indexes.index` (library code not in src/).  For each incoming
chunk in order: if its key is already recorded, skip; else record the
key, embed and add the chunk.  Returns (record keys after, chunks
added, number of additions). -/
def syncAdd : List (Nat × List Char) → List Document →
    List (Nat × List Char) × List Document × Nat
  | records, [] => (records, [], 0)
  | records, c :: cs =>
    if keyOf c ∈ records then syncAdd records cs
    else
      let r := syncAdd (keyOf c :: records) cs
      (r.1, c :: r.2.1, r.2.2 + 1)

/-- Modelled from the spec (4.3): one full-cleanup sync pass of
`langchain.indexes.index(..., cleanup="full")` (library code not in
src/): run the add phase, then delete every record and entry whose key
was not seen among the incoming chunks, then persist the store once. -/
def syncPass (st : IndexState) (chunks : List Document) :
    IndexState × SyncStats :=
  let incoming := chunks.map keyOf
  let r := syncAdd st.records chunks
  let entries1 := (st.entries ++ r.2.1).filter (fun d => keyOf d ∈ incoming)
  ({ records := r.1.filter (fun kk => kk ∈ incoming),
     entries := entries1,
     persisted := entries1 },
   { num_added := r.2.2,
     num_deleted := (r.1.filter (fun kk => kk ∉ incoming)).length })

/-- Fuel-driven split of a text at every occurrence of a non-empty
separator, keeping the separator at the edge of the piece it ends; fuel
is one more than the text length, so it never runs out. -/
def splitKeepSepGo (sep : List Char) :
    Nat → List Char → List Char → List (List Char)
  | 0, acc, rest => [acc ++ rest]
  | _ + 1, acc, [] => [acc]
  | fuel + 1, acc, c :: cs =>
    if (c :: cs).take sep.length = sep then
      (acc ++ sep) :: splitKeepSepGo sep fuel [] ((c :: cs).drop sep.length)
    else
      splitKeepSepGo sep fuel (acc ++ [c]) cs

/-- Modelled from the spec (4.1): splitting a text at one separator with
`keep_separator=True` (the langchain splitter internals are library code
not in src/); the empty separator splits into single characters. -/
def splitKeepSep (sep : List Char) (s : List Char) : List (List Char) :=
  if sep.isEmpty then s.map (fun c => [c])
  else splitKeepSepGo sep (s.length + 1) [] s

/-- The separator priority list passed by `split_documents`
(src/src/data_loader.py lines 77-86): paragraph break, line break,
sentence-terminal punctuation, comma, space, character boundary. -/
def SEPARATORS : List (List Char) :=
  [['\n', '\n'], ['\n'], ['.'], ['!'], ['?'], [','], [' '], []]

/-- Modelled from the spec (4.1): the recursive splitting phase of
`RecursiveCharacterTextSplitter` (library code not in src/).  A text
within `chunk_size` is kept whole; otherwise it is split at the
highest-priority separator and only still-oversized pieces are split
further with the remaining separators. -/
def splitPieces (size : Nat) : List (List Char) → List Char → List (List Char)
  | [], s => [s]
  | sep :: rest, s =>
    if s.length ≤ size then [s]
    else
      (splitKeepSep sep s).flatMap fun p =>
        if p.length ≤ size then [p] else splitPieces size rest p

/-- The trailing `n` characters of a text (the whole text when it is
shorter than `n`). -/
def lastN (n : Nat) (l : List Char) : List Char :=
  l.drop (l.length - n)

/-- Modelled from the spec (4.1): the merge phase of the splitter
(library code not in src/).  Pieces are accumulated into a chunk while
it stays within `chunk_size`; when the next piece does not fit, the
chunk is emitted and the next chunk starts with the trailing
`chunk_overlap` characters of the emitted one. -/
def mergeChunks (size overlap : Nat) :
    List Char → List (List Char) → List (List Char)
  | current, [] => if current.isEmpty then [] else [current]
  | current, p :: ps =>
    if current.isEmpty then mergeChunks size overlap p ps
    else if current.length + p.length ≤ size then
      mergeChunks size overlap (current ++ p) ps
    else
      current :: mergeChunks size overlap (lastN overlap current ++ p) ps

/-- `split_text` of the splitter built by `split_documents`: recursive
splitting followed by overlap-carrying merging. -/
def split_text (size overlap : Nat) (s : List Char) : List (List Char) :=
  mergeChunks size overlap [] (splitPieces size SEPARATORS s)

/-- `split_documents` (src/src/data_loader.py lines 57-97): empty input
returns `[]` at once; otherwise every document is split into chunks that
keep the parent's `source`. -/
def split_documents (documents : List Document)
    (chunk_size chunk_overlap : Nat) : List Document :=
  if documents.isEmpty then []
  else
    documents.flatMap fun d =>
      (split_text chunk_size chunk_overlap d.page_content).map fun cs =>
        { page_content := cs, source := d.source }

/-- `RAG.add_documents` (src/src/rag.py lines 208-232): an empty
document list only prints and returns (no indexing, no save); otherwise
the documents are split with the defaults `chunk_size=1000,
chunk_overlap=200` and indexed with `cleanup="full"`, and the store is
saved once. -/
def add_documents (st : IndexState) (documents : List Document) :
    IndexState × SyncStats :=
  if documents.isEmpty then (st, { num_added := 0, num_deleted := 0 })
  else syncPass st (split_documents documents 1000 200)

/-- Outcome of `loader.load()` for one file: parsed documents, or
`failed` for any raised exception. -/
inductive ParseOutcome where
  | parsed (docs : List Document)
  | failed
deriving DecidableEq, Repr

/-- One directory entry as `load_documents_from_directory` sees it:
`ext` stands for `os.path.splitext(file_name)[1].lower()`, `is_file`
for `os.path.isfile(file_path)`, and `outcome` for what the configured
loader does on the file. -/
structure DirEntry where
  ext : List Char
  is_file : Bool
  outcome : ParseOutcome
deriving DecidableEq, Repr

/-- The supported-extension table `LOADER_CONFIGS`
(src/src/data_loader.py lines 12-20); the `.json` entry is commented
out in the source. -/
def LOADER_CONFIGS : List (List Char) :=
  [['.', 'p', 'd', 'f'],
   ['.', 't', 'x', 't'],
   ['.', 'd', 'o', 'c'],
   ['.', 'd', 'o', 'c', 'x'],
   ['.', 'h', 't', 'm', 'l'],
   ['.', 'm', 'd']]

/-- `get_supported_extensions` (src/src/data_loader.py lines 100-108). -/
def get_supported_extensions : List (List Char) :=
  LOADER_CONFIGS

/-- The two `ValueError`s `load_documents_from_directory` raises before
reading any file (src/src/data_loader.py lines 34-38). -/
inductive LoadError where
  | missingDirectory
  | notDirectory
deriving DecidableEq, Repr

/-- One iteration of the loading loop (src/src/data_loader.py lines
42-52): non-files are ignored; for a regular file the loader class is
looked up by lowered extension — an unsupported extension makes
`loader_class(file_path)` raise (the lookup returned None) and any
loader exception lands in the same bare `except Exception: continue`,
so both cases contribute nothing and the loop goes on. -/
def docsOfEntry (e : DirEntry) : List Document :=
  if e.is_file then
    if e.ext ∈ LOADER_CONFIGS then
      match e.outcome with
      | ParseOutcome.parsed docs => docs
      | ParseOutcome.failed => []
    else []
  else []

/-- `load_documents_from_directory` (src/src/data_loader.py lines
23-54): raise for a missing or non-directory path, else collect what
each directory entry's loader yields. -/
def load_documents_from_directory (dir_exists is_dir : Bool)
    (entries : List DirEntry) : Except LoadError (List Document) :=
  if !dir_exists then Except.error LoadError.missingDirectory
  else if !is_dir then Except.error LoadError.notDirectory
  else Except.ok (entries.flatMap docsOfEntry)

/-- The `human` role tag stored in the messages table. -/
def roleHuman : String := "human"

/-- The `ai` role tag stored in the messages table. -/
def roleAi : String := "ai"

/-- The `system` role tag stored in the messages table. -/
def roleSystem : String := "system"

/-- A row of the `conversations` table (src/src/database.py lines
34-41); ids and timestamps are abstracted to naturals, the unused
`metadata` column is omitted. -/
structure ConversationRow where
  conversation_id : Nat
  created_at : Nat
  updated_at : Nat
deriving DecidableEq, Repr

/-- A row of the `messages` table (src/src/database.py lines 43-52). -/
structure MessageRow where
  message_id : Nat
  conversation_id : Nat
  role : String
  content : List Char
  created_at : Nat
deriving DecidableEq, Repr

/-- The chat-history database: both tables, rows in insertion order
(the `ORDER BY created_at` read-back is modelled by keeping insertion
order, timestamps being non-decreasing across inserts). -/
structure ChatDB where
  conversations : List ConversationRow
  messages : List MessageRow
deriving DecidableEq, Repr

/-- The exceptions `ChatDatabase` methods raise: the `ValueError` for a
bad role in `save_message`, and the `RuntimeError` wrapping any sqlite
failure. -/
inductive DbError where
  | invalidRole
  | storageFailure
deriving DecidableEq, Repr

/-- `ChatDatabase.delete_conversation` (src/src/database.py lines
197-222): on a storage failure the wrapped `RuntimeError` is raised;
otherwise a missing conversation returns False with nothing touched,
and an existing one has its messages and its row deleted, returning
True.  `storage_ok` stands for the sqlite connection and statements
succeeding. -/
def delete_conversation (storage_ok : Bool) (db : ChatDB) (cid : Nat) :
    Except DbError (ChatDB × Bool) :=
  if !storage_ok then Except.error DbError.storageFailure
  else if !(db.conversations.any (fun c => c.conversation_id == cid)) then
    Except.ok (db, false)
  else
    Except.ok
      ({ conversations := db.conversations.filter
           (fun c => !(c.conversation_id == cid)),
         messages := db.messages.filter
           (fun m => !(m.conversation_id == cid)) },
       true)

/-- `ChatDatabase.save_message` (src/src/database.py lines 91-129):
reject a role outside human/ai/system; insert the conversation row if
absent, else bump its `updated_at`; then insert the message row.
`message_id` (a uuid in the source) and `now` are parameters. -/
def save_message (db : ChatDB) (cid : Nat) (role : String)
    (content : List Char) (message_id now : Nat) : Except DbError ChatDB :=
  if role ∉ [roleHuman, roleAi, roleSystem] then
    Except.error DbError.invalidRole
  else
    let convs :=
      if db.conversations.any (fun c => c.conversation_id == cid) then
        db.conversations.map fun c =>
          if c.conversation_id == cid then { c with updated_at := now } else c
      else
        db.conversations ++
          [{ conversation_id := cid, created_at := now, updated_at := now }]
    Except.ok
      { conversations := convs,
        messages := db.messages ++
          [{ message_id := message_id, conversation_id := cid,
             role := role, content := content, created_at := now }] }

/-- The message roles of the langchain message objects built by
`get_conversation_history`. -/
inductive Role where
  | system
  | human
  | ai
deriving DecidableEq, Repr

/-- A chat message as handed to the models: role plus content. -/
structure Msg where
  role : Role
  content : List Char
deriving DecidableEq, Repr

/-- The role-tag dispatch of `get_conversation_history`
(src/src/database.py lines 79-85): rows with any other role tag are
silently dropped. -/
def roleOf (r : String) : Option Role :=
  if r = roleHuman then some Role.human
  else if r = roleAi then some Role.ai
  else if r = roleSystem then some Role.system
  else none

/-- `ChatDatabase.get_conversation_history` (src/src/database.py lines
58-89): the conversation's message rows in stored order, mapped to
message objects. -/
def get_conversation_history (db : ChatDB) (cid : Nat) : List Msg :=
  db.messages.filterMap fun m =>
    if m.conversation_id == cid then
      (roleOf m.role).map fun r => { role := r, content := m.content }
    else none

/-- Whether a message is a system message. -/
def isSystemMsg (m : Msg) : Bool :=
  m.role == Role.system

/-- Total token count of a message list under an approximate
per-message token counter. -/
def tokensOf (tok : Msg → Nat) (ms : List Msg) : Nat :=
  (ms.map tok).sum

/-- Modelled from the spec (6): the oldest-first trimming loop of
langchain `trim_messages(strategy="last")` (library code not in src/):
drop the oldest remaining non-system turn while the kept system
messages plus the window exceed the budget. -/
def dropOldest (tok : Msg → Nat) (budget sysTokens : Nat) :
    List Msg → List Msg
  | [] => []
  | m :: ms =>
    if sysTokens + tokensOf tok (m :: ms) ≤ budget then m :: ms
    else dropOldest tok budget sysTokens ms

/-- Modelled from the spec (6): the `start_on="human"` adjustment of
langchain `trim_messages` (library code not in src/): drop leading
messages until the window starts on a human turn. -/
def startOnHuman : List Msg → List Msg
  | [] => []
  | m :: ms => if m.role == Role.human then m :: ms else startOnHuman ms

/-- Modelled from the spec (6): langchain `trim_messages(max_tokens,
strategy="last", start_on="human", include_system=True,
allow_partial=False)` as called by `ChatBot.chat` (src/src/chat_bot.py
lines 82-90) is library code not in src/; per the spec, history is
trimmed to the token budget by dropping oldest turns first, always
keeping system messages, with the remaining window starting on a human
turn. -/
def trim_messages (tok : Msg → Nat) (max_tokens : Nat) (ms : List Msg) :
    List Msg :=
  let sys := ms.filter isSystemMsg
  let rest := ms.filter fun m => !isSystemMsg m
  sys ++ startOnHuman (dropOldest tok max_tokens (tokensOf tok sys) rest)

/-- The token budget `ChatBot.chat` passes to `trim_messages`
(src/src/chat_bot.py line 84). -/
def chat_max_tokens : Nat := 150000

/-- The messages of one conversation, in stored order. -/
def messagesOf (db : ChatDB) (cid : Nat) : List MessageRow :=
  db.messages.filter fun m => m.conversation_id == cid

/-- `ChatBot.chat` (src/src/chat_bot.py lines 78-109): load and trim
the conversation history, produce the response with the RAG pipeline or
the plain chain (both abstracted as functions of query and trimmed
history), then save the human query and the ai response.  `mid1/mid2`
are the generated message ids and `t1/t2` the two timestamps. -/
def chat_bot_chat (use_rag : Bool)
    (rag_generate plain_chain : List Char → List Msg → List Char)
    (tok : Msg → Nat) (db : ChatDB) (cid : Nat) (query : List Char)
    (mid1 mid2 t1 t2 : Nat) : Except DbError (ChatDB × List Char) :=
  let chat_history :=
    trim_messages tok chat_max_tokens (get_conversation_history db cid)
  let response :=
    if use_rag then rag_generate query chat_history
    else plain_chain query chat_history
  match save_message db cid roleHuman query mid1 t1 with
  | Except.error e => Except.error e
  | Except.ok db1 =>
    match save_message db1 cid roleAi response mid2 t2 with
    | Except.error e => Except.error e
    | Except.ok db2 => Except.ok (db2, response)

theorem length_insertByScore (score : Document → Int) (d : Document)
    (l : List Document) :
    (insertByScore score d l).length = l.length + 1 := by
  induction l with
  | nil => simp [insertByScore]
  | cons e es ih =>
    by_cases h : score d < score e
    · simp [insertByScore, h, ih]
    · simp [insertByScore, h]

theorem length_sortByScore (score : Document → Int) (l : List Document) :
    (sortByScore score l).length = l.length := by
  induction l with
  | nil => rfl
  | cons d ds ih => simp [sortByScore, length_insertByScore, ih]

/-- C5: each `change_type_of_search` call sets the flag and rebuilds the
retriever immediately (the state is again a fixed point of
`_create_retriever`, so the next retrieval observes the new mode), and
toggling to `m1` and back to the previously held mode restores the
retriever configuration held before the first call. -/
theorem change_type_of_search_rebuilds_and_restores (s : RagState)
    (m1 m2 : Bool) (hwf : s = create_retriever s)
    (hm : m2 = s.more_diverse) :
    (change_type_of_search s m1).more_diverse = m1
    ∧ change_type_of_search s m1
        = create_retriever (change_type_of_search s m1)
    ∧ (change_type_of_search (change_type_of_search s m1) m2).retriever
        = s.retriever := by
  subst hm
  refine ⟨?_, ?_, ?_⟩
  · cases h : s.more_diverse <;> cases m1 <;>
      simp [change_type_of_search, create_retriever, h]
  · cases m1 <;> simp [change_type_of_search, create_retriever]
  · rw [hwf]
    cases h : s.more_diverse <;> cases m1 <;>
      simp [change_type_of_search, create_retriever, h]

theorem change_rebuilds_witness :
    (rag_init 3 10 = create_retriever (rag_init 3 10))
    ∧ (true = (rag_init 3 10).more_diverse)
    ∧ ((change_type_of_search (rag_init 3 10) false).more_diverse = false
       ∧ change_type_of_search (rag_init 3 10) false
           = create_retriever (change_type_of_search (rag_init 3 10) false)
       ∧ (change_type_of_search
            (change_type_of_search (rag_init 3 10) false) true).retriever
           = (rag_init 3 10).retriever) :=
  ⟨by decide, by decide,
    change_type_of_search_rebuilds_and_restores (rag_init 3 10) false true
      (by decide) (by decide)⟩

/-- C4: when loading the persisted store fails for any reason, the
fallback builds an empty index whose dimensionality is the length of
the embedding of the probe string and immediately persists it, so that
a subsequent load succeeds and returns exactly that empty store. -/
theorem init_vector_store_fallback (embed : String → List Int) :
    (init_vector_store embed none).1
        = emptyStore (embed dummyQuery).length
    ∧ (init_vector_store embed none).1.entries = []
    ∧ (init_vector_store embed none).1.dimension
        = (embed dummyQuery).length
    ∧ (init_vector_store embed none).2
        = some (init_vector_store embed none).1
    ∧ init_vector_store embed (init_vector_store embed none).2
        = ((init_vector_store embed none).1,
           (init_vector_store embed none).2) := by
  simp [init_vector_store, emptyStore]

/-- C1 counterexample: with the default construction (`RAG()`, so
`k = 3`, `fetch_k = 10`) switched to Accurate mode and a store of ten
entries, the retrieval stage of `generate` hands `5` documents to
answer composition — the reranker singleton's `top_n = 5` — and not the
instance's `k = 3` as the claim states. -/
theorem generate_accurate_not_k_counterexample :
    ((generate_docs (change_type_of_search (rag_init 3 10) false)
        (fun _ => 0) (fun _ _ => 0) (fun _ => 0)
        ((List.range 10).map
          fun i => { page_content := [], source := i })).final.length = 5)
    ∧ ((generate_docs (change_type_of_search (rag_init 3 10) false)
        (fun _ => 0) (fun _ _ => 0) (fun _ => 0)
        ((List.range 10).map
          fun i => { page_content := [], source := i })).final.length
        ≠ (change_type_of_search (rag_init 3 10) false).k) := by
  decide

/-- C1 (amended): in Accurate mode (`more_diverse = False`, retriever
rebuilt by `_create_retriever`), every `generate` call performs a
similarity search returning `fetch_k` candidates (capped by the store
size) and then invokes the reranker, which narrows the candidates to
the reranker singleton's own `top_n = 5` (capped by the candidate
count) — not to the instance's `k` — before answer composition; the
reranker is never invoked in Diverse mode. -/
theorem generate_accurate_reranks_to_top_n (s : RagState)
    (qsim : Document → Int) (sim : Document → Document → Int)
    (score : Document → Int) (store : List Document)
    (hacc : s.more_diverse = false)
    (hret : s.retriever = RetrieverConfig.similarity s.fetch_k) :
    (generate_docs s qsim sim score store).candidates.length
        = min s.fetch_k store.length
    ∧ (generate_docs s qsim sim score store).rerank_invoked = true
    ∧ (generate_docs s qsim sim score store).final.length
        = min reranker_top_n (min s.fetch_k store.length)
    ∧ ∀ s2 : RagState, s2.more_diverse = true →
        (generate_docs s2 qsim sim score store).rerank_invoked = false := by
  refine ⟨?_, ?_, ?_, ?_⟩
  · simp [generate_docs, hacc, hret, retrieve, similarity_search]
  · simp [generate_docs, hacc]
  · simp [generate_docs, hacc, hret, retrieve, similarity_search,
      compress_documents, length_sortByScore]
  · intro s2 h2
    simp [generate_docs, h2]

theorem generate_accurate_witness :
    ((change_type_of_search (rag_init 3 10) false).more_diverse = false)
    ∧ ((change_type_of_search (rag_init 3 10) false).retriever
        = RetrieverConfig.similarity
            (change_type_of_search (rag_init 3 10) false).fetch_k)
    ∧ ((generate_docs (change_type_of_search (rag_init 3 10) false)
          (fun _ => 1) (fun _ _ => 1) (fun _ => 1)
          ((List.range 10).map
            fun i => { page_content := [], source := i })).candidates.length
        = min (change_type_of_search (rag_init 3 10) false).fetch_k
            ((List.range 10).map
              fun i =>
                ({ page_content := [], source := i } : Document)).length
       ∧ (generate_docs (change_type_of_search (rag_init 3 10) false)
          (fun _ => 1) (fun _ _ => 1) (fun _ => 1)
          ((List.range 10).map
            fun i => { page_content := [], source := i })).rerank_invoked
          = true
       ∧ (generate_docs (change_type_of_search (rag_init 3 10) false)
          (fun _ => 1) (fun _ _ => 1) (fun _ => 1)
          ((List.range 10).map
            fun i => { page_content := [], source := i })).final.length
          = min reranker_top_n
              (min (change_type_of_search (rag_init 3 10) false).fetch_k
                ((List.range 10).map
                  fun i =>
                    ({ page_content := [], source := i } : Document)).length)
       ∧ ∀ s2 : RagState, s2.more_diverse = true →
          (generate_docs s2 (fun _ => 1) (fun _ _ => 1) (fun _ => 1)
            ((List.range 10).map
              fun i => { page_content := [], source := i })).rerank_invoked
            = false) :=
  ⟨by decide, by decide,
    generate_accurate_reranks_to_top_n
      (change_type_of_search (rag_init 3 10) false)
      (fun _ => 1) (fun _ _ => 1) (fun _ => 1)
      ((List.range 10).map fun i => { page_content := [], source := i })
      (by decide) (by decide)⟩

theorem syncAdd_mem_of_mem (records : List (Nat × List Char))
    (cs : List Document) (kk : Nat × List Char) (hk : kk ∈ records) :
    kk ∈ (syncAdd records cs).1 := by
  induction cs generalizing records with
  | nil => simpa [syncAdd] using hk
  | cons c cs ih =>
    by_cases h : keyOf c ∈ records
    · simpa [syncAdd, h] using ih records hk
    · simpa [syncAdd, h] using
        ih (keyOf c :: records) (List.mem_cons_of_mem _ hk)

theorem syncAdd_mem_incoming (records : List (Nat × List Char))
    (cs : List Document) (c : Document) (hc : c ∈ cs) :
    keyOf c ∈ (syncAdd records cs).1 := by
  induction cs generalizing records with
  | nil => cases hc
  | cons c0 cs ih =>
    by_cases h : keyOf c0 ∈ records
    · rcases List.mem_cons.mp hc with rfl | hc'
      · simpa [syncAdd, h] using syncAdd_mem_of_mem records cs _ h
      · simpa [syncAdd, h] using ih records hc'
    · rcases List.mem_cons.mp hc with rfl | hc'
      · simpa [syncAdd, h] using
          syncAdd_mem_of_mem (keyOf c :: records) cs _ (List.mem_cons_self _ _)
      · simpa [syncAdd, h] using ih (keyOf c0 :: records) hc'

theorem syncAdd_skip_all (records : List (Nat × List Char))
    (cs : List Document) (h : ∀ c ∈ cs, keyOf c ∈ records) :
    syncAdd records cs = (records, [], 0) := by
  induction cs with
  | nil => simp [syncAdd]
  | cons c cs ih =>
    have hc := h c (List.mem_cons_self _ _)
    have ih' := ih fun c' hc' => h c' (List.mem_cons_of_mem _ hc')
    simp [syncAdd, hc, ih']

theorem syncAdd_added_key (records : List (Nat × List Char))
    (cs : List Document) (c : Document) (hc : c ∈ cs) :
    keyOf c ∈ records ∨ keyOf c ∈ (syncAdd records cs).2.1.map keyOf := by
  induction cs generalizing records with
  | nil => cases hc
  | cons c0 cs ih =>
    by_cases h : keyOf c0 ∈ records
    · rcases List.mem_cons.mp hc with rfl | hc'
      · exact Or.inl h
      · simpa [syncAdd, h] using ih records hc'
    · rcases List.mem_cons.mp hc with rfl | hc'
      · simp [syncAdd, h]
      · rcases ih (keyOf c0 :: records) hc' with hmem | hmem
        · rcases List.mem_cons.mp hmem with heq | hmem'
          · simp [syncAdd, h, heq]
          · exact Or.inl hmem'
        · simp [syncAdd, h]
          right
          right
          simpa using hmem

theorem syncPass_fixed (st : IndexState) (chunks : List Document)
    (hrec : ∀ c ∈ chunks, keyOf c ∈ st.records)
    (hrecin : ∀ kk ∈ st.records, kk ∈ chunks.map keyOf)
    (hent : ∀ d ∈ st.entries, keyOf d ∈ chunks.map keyOf)
    (hper : st.persisted = st.entries) :
    syncPass st chunks = (st, { num_added := 0, num_deleted := 0 }) := by
  obtain ⟨rs, es, ps⟩ := st
  simp only at hrec hrecin hent hper
  subst hper
  have hadd := syncAdd_skip_all rs chunks hrec
  have hrfil : rs.filter (fun kk => kk ∈ chunks.map keyOf) = rs :=
    List.filter_eq_self.mpr fun kk hk => decide_eq_true (hrecin kk hk)
  have hefil :
      ps.filter (fun d => keyOf d ∈ chunks.map keyOf) = ps :=
    List.filter_eq_self.mpr fun d hd => decide_eq_true (hent d hd)
  have hnil : rs.filter (fun kk => kk ∉ chunks.map keyOf) = [] := by
    rw [List.filter_eq_nil_iff]
    intro kk hk
    simp only [decide_not, Bool.not_eq_true', decide_eq_false_iff_not,
      Decidable.not_not]
    exact hrecin kk hk
  simp only [syncPass, hadd, List.append_nil]
  rw [hrfil, hefil, hnil]
  simp

theorem syncPass_chunk_key_recorded (st : IndexState)
    (chunks : List Document) (c : Document) (hc : c ∈ chunks) :
    keyOf c ∈ (syncPass st chunks).1.records := by
  simp only [syncPass]
  exact List.mem_filter.mpr
    ⟨syncAdd_mem_incoming st.records chunks c hc,
     decide_eq_true (List.mem_map_of_mem keyOf hc)⟩

theorem syncPass_records_incoming (st : IndexState)
    (chunks : List Document) (kk : Nat × List Char)
    (hk : kk ∈ (syncPass st chunks).1.records) :
    kk ∈ chunks.map keyOf := by
  simp only [syncPass] at hk
  exact of_decide_eq_true (List.mem_filter.mp hk).2

theorem syncPass_entries_incoming (st : IndexState)
    (chunks : List Document) (d : Document)
    (hd : d ∈ (syncPass st chunks).1.entries) :
    keyOf d ∈ chunks.map keyOf := by
  simp only [syncPass] at hd
  exact of_decide_eq_true (List.mem_filter.mp hd).2

theorem syncPass_persisted_eq (st : IndexState) (chunks : List Document) :
    (syncPass st chunks).1.persisted = (syncPass st chunks).1.entries := by
  simp [syncPass]

/-- C2: running `RAG.add_documents` twice with an unchanged document
set performs zero embedding calls (`num_added`, each addition being one
embedding) and zero deletions on the second pass, and the second pass
leaves the whole index state — record keys, entries and the persisted
copy — exactly as it was after the first pass. -/
theorem add_documents_idempotent (st0 : IndexState)
    (docs : List Document) :
    (add_documents (add_documents st0 docs).1 docs).2.num_added = 0
    ∧ (add_documents (add_documents st0 docs).1 docs).2.num_deleted = 0
    ∧ (add_documents (add_documents st0 docs).1 docs).1
        = (add_documents st0 docs).1 := by
  by_cases hd : docs.isEmpty
  · simp [add_documents, hd]
  · have hfix := syncPass_fixed
      (syncPass st0 (split_documents docs 1000 200)).1
      (split_documents docs 1000 200)
      (fun c hc => syncPass_chunk_key_recorded st0 _ c hc)
      (fun kk hk => syncPass_records_incoming st0 _ kk hk)
      (fun d hdm => syncPass_entries_incoming st0 _ d hdm)
      (syncPass_persisted_eq st0 _)
    simp [add_documents, hd, hfix]

/-- C3: under the record/store consistency the sync engine maintains
(every recorded key has a stored entry), a full-cleanup pass on the
chunk set derived from the current documents leaves the store with
exactly the derivable chunks: every surviving entry's key is an
incoming chunk key, every incoming chunk's key is present, every entry
of a source absent from the current documents is deleted, and no entry
whose key is still derivable (in particular no chunk of a still-present
unchanged source) is removed. -/
theorem syncPass_exact_cleanup (st : IndexState) (chunks : List Document)
    (d c : Document)
    (hrec : ∀ kk ∈ st.records, ∃ e ∈ st.entries, keyOf e = kk) :
    (d ∈ (syncPass st chunks).1.entries → keyOf d ∈ chunks.map keyOf)
    ∧ (c ∈ chunks → keyOf c ∈ (syncPass st chunks).1.entries.map keyOf)
    ∧ (d ∈ st.entries → d.source ∉ chunks.map Document.source →
        d ∉ (syncPass st chunks).1.entries)
    ∧ (d ∈ st.entries → keyOf d ∈ chunks.map keyOf →
        d ∈ (syncPass st chunks).1.entries) := by
  refine ⟨?_, ?_, ?_, ?_⟩
  · exact syncPass_entries_incoming st chunks d
  · intro hc
    rcases syncAdd_added_key st.records chunks c hc with hin | hadded
    · rcases hrec (keyOf c) hin with ⟨e, he, hek⟩
      have hmem : e ∈ (syncPass st chunks).1.entries := by
        simp only [syncPass]
        exact List.mem_filter.mpr
          ⟨List.mem_append_left _ he,
           decide_eq_true (hek ▸ List.mem_map_of_mem keyOf hc)⟩
      exact hek ▸ List.mem_map_of_mem keyOf hmem
    · rcases List.mem_map.mp hadded with ⟨a, ha, hak⟩
      have hmem : a ∈ (syncPass st chunks).1.entries := by
        simp only [syncPass]
        exact List.mem_filter.mpr
          ⟨List.mem_append_right _ ha,
           decide_eq_true (hak ▸ List.mem_map_of_mem keyOf hc)⟩
      exact hak ▸ List.mem_map_of_mem keyOf hmem
  · intro _ hsrc hmem
    have hkey := syncPass_entries_incoming st chunks d hmem
    rcases List.mem_map.mp hkey with ⟨a, ha, hak⟩
    have : a.source = d.source := congrArg Prod.fst hak
    exact hsrc (this ▸ List.mem_map_of_mem Document.source ha)
  · intro hd hkey
    simp only [syncPass]
    exact List.mem_filter.mpr
      ⟨List.mem_append_left _ hd, decide_eq_true hkey⟩

theorem syncPass_exact_cleanup_witness :
    (∀ kk ∈ ({ records := [(0, ['a']), (1, ['b'])],
               entries := [{ page_content := ['a'], source := 0 },
                           { page_content := ['b'], source := 1 }],
               persisted := [{ page_content := ['a'], source := 0 },
                             { page_content := ['b'], source := 1 }] }
                : IndexState).records,
        ∃ e ∈ ({ records := [(0, ['a']), (1, ['b'])],
                 entries := [{ page_content := ['a'], source := 0 },
                             { page_content := ['b'], source := 1 }],
                 persisted := [{ page_content := ['a'], source := 0 },
                               { page_content := ['b'], source := 1 }] }
                  : IndexState).entries, keyOf e = kk)
    ∧ (({ page_content := ['b'], source := 1 } : Document)
          ∈ (syncPass
              { records := [(0, ['a']), (1, ['b'])],
                entries := [{ page_content := ['a'], source := 0 },
                            { page_content := ['b'], source := 1 }],
                persisted := [{ page_content := ['a'], source := 0 },
                              { page_content := ['b'], source := 1 }] }
              [{ page_content := ['a'], source := 0 }]).1.entries →
          keyOf { page_content := ['b'], source := 1 }
            ∈ [({ page_content := ['a'], source := 0 } : Document)].map keyOf)
      ∧ (({ page_content := ['a'], source := 0 } : Document)
            ∈ [({ page_content := ['a'], source := 0 } : Document)] →
          keyOf { page_content := ['a'], source := 0 }
            ∈ (syncPass
                { records := [(0, ['a']), (1, ['b'])],
                  entries := [{ page_content := ['a'], source := 0 },
                              { page_content := ['b'], source := 1 }],
                  persisted := [{ page_content := ['a'], source := 0 },
                                { page_content := ['b'], source := 1 }] }
                [{ page_content := ['a'], source := 0 }]).1.entries.map keyOf)
      ∧ (({ page_content := ['b'], source := 1 } : Document)
            ∈ ({ records := [(0, ['a']), (1, ['b'])],
                 entries := [{ page_content := ['a'], source := 0 },
                             { page_content := ['b'], source := 1 }],
                 persisted := [{ page_content := ['a'], source := 0 },
                               { page_content := ['b'], source := 1 }] }
                  : IndexState).entries →
          ({ page_content := ['b'], source := 1 } : Document).source
              ∉ [({ page_content := ['a'], source := 0 } : Document)].map
                  Document.source →
          ({ page_content := ['b'], source := 1 } : Document)
            ∉ (syncPass
                { records := [(0, ['a']), (1, ['b'])],
                  entries := [{ page_content := ['a'], source := 0 },
                              { page_content := ['b'], source := 1 }],
                  persisted := [{ page_content := ['a'], source := 0 },
                                { page_content := ['b'], source := 1 }] }
                [{ page_content := ['a'], source := 0 }]).1.entries)
      ∧ (({ page_content := ['b'], source := 1 } : Document)
            ∈ ({ records := [(0, ['a']), (1, ['b'])],
                 entries := [{ page_content := ['a'], source := 0 },
                             { page_content := ['b'], source := 1 }],
                 persisted := [{ page_content := ['a'], source := 0 },
                               { page_content := ['b'], source := 1 }] }
                  : IndexState).entries →
          keyOf { page_content := ['b'], source := 1 }
              ∈ [({ page_content := ['a'], source := 0 } : Document)].map keyOf →
          ({ page_content := ['b'], source := 1 } : Document)
            ∈ (syncPass
                { records := [(0, ['a']), (1, ['b'])],
                  entries := [{ page_content := ['a'], source := 0 },
                              { page_content := ['b'], source := 1 }],
                  persisted := [{ page_content := ['a'], source := 0 },
                                { page_content := ['b'], source := 1 }] }
                [{ page_content := ['a'], source := 0 }]).1.entries) :=
  ⟨by decide,
   syncPass_exact_cleanup
     { records := [(0, ['a']), (1, ['b'])],
       entries := [{ page_content := ['a'], source := 0 },
                   { page_content := ['b'], source := 1 }],
       persisted := [{ page_content := ['a'], source := 0 },
                     { page_content := ['b'], source := 1 }] }
     [{ page_content := ['a'], source := 0 }]
     { page_content := ['b'], source := 1 }
     { page_content := ['a'], source := 0 }
     (by decide)⟩

/-- C8: on an existing document directory the loader never raises: it
returns the accumulated documents of every entry, a skipped entry
(non-file, unsupported extension, or failing loader) contributes
nothing, removing such an entry from anywhere in the directory does not
change the result, and a supported parsable file contributes exactly
its parsed documents with the rest of the batch intact. -/
theorem load_documents_skips_bad_entries
    (entries entries1 entries2 : List DirEntry) (bad good : DirEntry)
    (docs : List Document)
    (hbad : bad.is_file = false ∨ bad.ext ∉ LOADER_CONFIGS
            ∨ bad.outcome = ParseOutcome.failed)
    (hgf : good.is_file = true) (hgs : good.ext ∈ LOADER_CONFIGS)
    (hgp : good.outcome = ParseOutcome.parsed docs) :
    load_documents_from_directory true true entries
        = Except.ok (entries.flatMap docsOfEntry)
    ∧ docsOfEntry bad = []
    ∧ docsOfEntry good = docs
    ∧ load_documents_from_directory true true (entries1 ++ bad :: entries2)
        = load_documents_from_directory true true (entries1 ++ entries2)
    ∧ load_documents_from_directory true true (entries1 ++ good :: entries2)
        = Except.ok (entries1.flatMap docsOfEntry ++ docs
            ++ entries2.flatMap docsOfEntry) := by
  have hbadnil : docsOfEntry bad = [] := by
    rcases hbad with h | h | h
    · simp [docsOfEntry, h]
    · cases hb : bad.is_file <;> simp [docsOfEntry, hb, h]
    · cases hb : bad.is_file <;> by_cases he : bad.ext ∈ LOADER_CONFIGS <;>
        simp [docsOfEntry, hb, he, h]
  have hgood : docsOfEntry good = docs := by
    simp [docsOfEntry, hgf, hgs, hgp]
  refine ⟨rfl, hbadnil, hgood, ?_, ?_⟩
  · simp [load_documents_from_directory, hbadnil]
  · simp [load_documents_from_directory, hgood, List.append_assoc]

theorem load_documents_skips_witness :
    ((({ ext := ['.', 'e', 'x', 'e'], is_file := true,
         outcome := ParseOutcome.failed } : DirEntry).is_file = false
      ∨ ({ ext := ['.', 'e', 'x', 'e'], is_file := true,
           outcome := ParseOutcome.failed } : DirEntry).ext ∉ LOADER_CONFIGS
      ∨ ({ ext := ['.', 'e', 'x', 'e'], is_file := true,
           outcome := ParseOutcome.failed } : DirEntry).outcome
          = ParseOutcome.failed)
     ∧ ({ ext := ['.', 't', 'x', 't'], is_file := true,
          outcome := ParseOutcome.parsed
            [{ page_content := ['h', 'i'], source := 7 }] }
          : DirEntry).is_file = true
     ∧ ({ ext := ['.', 't', 'x', 't'], is_file := true,
          outcome := ParseOutcome.parsed
            [{ page_content := ['h', 'i'], source := 7 }] }
          : DirEntry).ext ∈ LOADER_CONFIGS
     ∧ ({ ext := ['.', 't', 'x', 't'], is_file := true,
          outcome := ParseOutcome.parsed
            [{ page_content := ['h', 'i'], source := 7 }] }
          : DirEntry).outcome
        = ParseOutcome.parsed [{ page_content := ['h', 'i'], source := 7 }])
    ∧ (load_documents_from_directory true true
          [{ ext := ['.', 'e', 'x', 'e'], is_file := true,
             outcome := ParseOutcome.failed }]
          = Except.ok
              ([({ ext := ['.', 'e', 'x', 'e'], is_file := true,
                   outcome := ParseOutcome.failed } : DirEntry)].flatMap
                docsOfEntry)
       ∧ docsOfEntry { ext := ['.', 'e', 'x', 'e'], is_file := true,
                       outcome := ParseOutcome.failed } = []
       ∧ docsOfEntry
             { ext := ['.', 't', 'x', 't'], is_file := true,
               outcome := ParseOutcome.parsed
                 [{ page_content := ['h', 'i'], source := 7 }] }
           = [{ page_content := ['h', 'i'], source := 7 }]
       ∧ load_documents_from_directory true true
             ([] ++ { ext := ['.', 'e', 'x', 'e'], is_file := true,
                      outcome := ParseOutcome.failed }
                :: [{ ext := ['.', 'e', 'x', 'e'], is_file := true,
                      outcome := ParseOutcome.failed }])
           = load_documents_from_directory true true
               ([] ++ [{ ext := ['.', 'e', 'x', 'e'], is_file := true,
                         outcome := ParseOutcome.failed }])
       ∧ load_documents_from_directory true true
             ([] ++ { ext := ['.', 't', 'x', 't'], is_file := true,
                      outcome := ParseOutcome.parsed
                        [{ page_content := ['h', 'i'], source := 7 }] }
                :: [{ ext := ['.', 'e', 'x', 'e'], is_file := true,
                      outcome := ParseOutcome.failed }])
           = Except.ok
               (([] : List DirEntry).flatMap docsOfEntry
                 ++ [{ page_content := ['h', 'i'], source := 7 }]
                 ++ [({ ext := ['.', 'e', 'x', 'e'], is_file := true,
                        outcome := ParseOutcome.failed }
                       : DirEntry)].flatMap docsOfEntry)) :=
  ⟨by decide,
   load_documents_skips_bad_entries
     [{ ext := ['.', 'e', 'x', 'e'], is_file := true,
        outcome := ParseOutcome.failed }]
     []
     [{ ext := ['.', 'e', 'x', 'e'], is_file := true,
        outcome := ParseOutcome.failed }]
     { ext := ['.', 'e', 'x', 'e'], is_file := true,
       outcome := ParseOutcome.failed }
     { ext := ['.', 't', 'x', 't'], is_file := true,
       outcome := ParseOutcome.parsed
         [{ page_content := ['h', 'i'], source := 7 }] }
     [{ page_content := ['h', 'i'], source := 7 }]
     (by decide) (by decide) (by decide) (by decide)⟩

/-- C9: `delete_conversation` returns False with the database untouched
when the conversation id is absent; when it is present it deletes the
conversation row and every one of its messages (and nothing else) and
returns True; and a storage failure raises the wrapped error, a signal
distinct from the False return. -/
theorem delete_conversation_spec (db : ChatDB) (cid : Nat)
    (hex : ∃ cc ∈ db.conversations, cc.conversation_id = cid) :
    delete_conversation false db cid
        = Except.error DbError.storageFailure
    ∧ (∀ db2 : ChatDB,
        (∀ cc ∈ db2.conversations, cc.conversation_id ≠ cid) →
        delete_conversation true db2 cid = Except.ok (db2, false))
    ∧ delete_conversation true db cid
        = Except.ok
            ({ conversations := db.conversations.filter
                 (fun cc => !(cc.conversation_id == cid)),
               messages := db.messages.filter
                 (fun m => !(m.conversation_id == cid)) },
             true)
    ∧ (∀ cc ∈ db.conversations.filter
          (fun cc => !(cc.conversation_id == cid)),
        cc.conversation_id ≠ cid)
    ∧ (∀ m ∈ db.messages.filter (fun m => !(m.conversation_id == cid)),
        m.conversation_id ≠ cid)
    ∧ (∀ cc ∈ db.conversations, cc.conversation_id ≠ cid →
        cc ∈ db.conversations.filter
          (fun cc => !(cc.conversation_id == cid)))
    ∧ (∀ m ∈ db.messages, m.conversation_id ≠ cid →
        m ∈ db.messages.filter (fun m => !(m.conversation_id == cid))) := by
  have hany : db.conversations.any (fun cc => cc.conversation_id == cid)
      = true := by
    rcases hex with ⟨cc, hcc, hid⟩
    exact List.any_eq_true.mpr ⟨cc, hcc, by simp [hid]⟩
  refine ⟨rfl, ?_, ?_, ?_, ?_, ?_, ?_⟩
  · intro db2 hnone
    have hnot : db2.conversations.any (fun cc => cc.conversation_id == cid)
        = false := by
      rw [List.any_eq_false]
      intro cc hcc
      simpa using hnone cc hcc
    simp [delete_conversation, hnot]
  · simp [delete_conversation, hany]
  · intro cc hcc
    have := (List.mem_filter.mp hcc).2
    simpa using this
  · intro m hm
    have := (List.mem_filter.mp hm).2
    simpa using this
  · intro cc hcc hne
    exact List.mem_filter.mpr ⟨hcc, by simpa using hne⟩
  · intro m hm hne
    exact List.mem_filter.mpr ⟨hm, by simpa using hne⟩

theorem delete_conversation_witness :
    (∃ cc ∈ ({ conversations :=
                 [{ conversation_id := 4, created_at := 0, updated_at := 0 },
                  { conversation_id := 9, created_at := 1, updated_at := 1 }],
               messages :=
                 [{ message_id := 0, conversation_id := 4,
                    role := "human", content := ['x'], created_at := 0 },
                  { message_id := 1, conversation_id := 9,
                    role := "ai", content := ['y'], created_at := 1 }] }
                : ChatDB).conversations, cc.conversation_id = 9)
    ∧ (delete_conversation false
         { conversations :=
             [{ conversation_id := 4, created_at := 0, updated_at := 0 },
              { conversation_id := 9, created_at := 1, updated_at := 1 }],
           messages :=
             [{ message_id := 0, conversation_id := 4,
                role := "human", content := ['x'], created_at := 0 },
              { message_id := 1, conversation_id := 9,
                role := "ai", content := ['y'], created_at := 1 }] } 9
         = Except.error DbError.storageFailure
       ∧ (∀ db2 : ChatDB,
           (∀ cc ∈ db2.conversations, cc.conversation_id ≠ 9) →
           delete_conversation true db2 9 = Except.ok (db2, false))
       ∧ delete_conversation true
           { conversations :=
               [{ conversation_id := 4, created_at := 0, updated_at := 0 },
                { conversation_id := 9, created_at := 1, updated_at := 1 }],
             messages :=
               [{ message_id := 0, conversation_id := 4,
                  role := "human", content := ['x'], created_at := 0 },
                { message_id := 1, conversation_id := 9,
                  role := "ai", content := ['y'], created_at := 1 }] } 9
           = Except.ok
               ({ conversations :=
                    ({ conversations :=
                         [{ conversation_id := 4, created_at := 0,
                            updated_at := 0 },
                          { conversation_id := 9, created_at := 1,
                            updated_at := 1 }],
                       messages :=
                         [{ message_id := 0, conversation_id := 4,
                            role := "human", content := ['x'],
                            created_at := 0 },
                          { message_id := 1, conversation_id := 9,
                            role := "ai", content := ['y'],
                            created_at := 1 }] }
                        : ChatDB).conversations.filter
                      (fun cc => !(cc.conversation_id == 9)),
                  messages :=
                    ({ conversations :=
                         [{ conversation_id := 4, created_at := 0,
                            updated_at := 0 },
                          { conversation_id := 9, created_at := 1,
                            updated_at := 1 }],
                       messages :=
                         [{ message_id := 0, conversation_id := 4,
                            role := "human", content := ['x'],
                            created_at := 0 },
                          { message_id := 1, conversation_id := 9,
                            role := "ai", content := ['y'],
                            created_at := 1 }] }
                        : ChatDB).messages.filter
                      (fun m => !(m.conversation_id == 9)) },
                true)
       ∧ (∀ cc ∈ ({ conversations :=
                      [{ conversation_id := 4, created_at := 0,
                         updated_at := 0 },
                       { conversation_id := 9, created_at := 1,
                         updated_at := 1 }],
                    messages :=
                      [{ message_id := 0, conversation_id := 4,
                         role := "human", content := ['x'],
                         created_at := 0 },
                       { message_id := 1, conversation_id := 9,
                         role := "ai", content := ['y'],
                         created_at := 1 }] }
                     : ChatDB).conversations.filter
                   (fun cc => !(cc.conversation_id == 9)),
           cc.conversation_id ≠ 9)
       ∧ (∀ m ∈ ({ conversations :=
                     [{ conversation_id := 4, created_at := 0,
                        updated_at := 0 },
                      { conversation_id := 9, created_at := 1,
                        updated_at := 1 }],
                   messages :=
                     [{ message_id := 0, conversation_id := 4,
                        role := "human", content := ['x'],
                        created_at := 0 },
                      { message_id := 1, conversation_id := 9,
                        role := "ai", content := ['y'],
                        created_at := 1 }] }
                    : ChatDB).messages.filter
                  (fun m => !(m.conversation_id == 9)),
           m.conversation_id ≠ 9)
       ∧ (∀ cc ∈ ({ conversations :=
                      [{ conversation_id := 4, created_at := 0,
                         updated_at := 0 },
                       { conversation_id := 9, created_at := 1,
                         updated_at := 1 }],
                    messages :=
                      [{ message_id := 0, conversation_id := 4,
                         role := "human", content := ['x'],
                         created_at := 0 },
                       { message_id := 1, conversation_id := 9,
                         role := "ai", content := ['y'],
                         created_at := 1 }] }
                     : ChatDB).conversations, cc.conversation_id ≠ 9 →
           cc ∈ ({ conversations :=
                     [{ conversation_id := 4, created_at := 0,
                        updated_at := 0 },
                      { conversation_id := 9, created_at := 1,
                        updated_at := 1 }],
                   messages :=
                     [{ message_id := 0, conversation_id := 4,
                        role := "human", content := ['x'],
                        created_at := 0 },
                      { message_id := 1, conversation_id := 9,
                        role := "ai", content := ['y'],
                        created_at := 1 }] }
                    : ChatDB).conversations.filter
                 (fun cc => !(cc.conversation_id == 9)))
       ∧ (∀ m ∈ ({ conversations :=
                     [{ conversation_id := 4, created_at := 0,
                        updated_at := 0 },
                      { conversation_id := 9, created_at := 1,
                        updated_at := 1 }],
                   messages :=
                     [{ message_id := 0, conversation_id := 4,
                        role := "human", content := ['x'],
                        created_at := 0 },
                      { message_id := 1, conversation_id := 9,
                        role := "ai", content := ['y'],
                        created_at := 1 }] }
                    : ChatDB).messages, m.conversation_id ≠ 9 →
           m ∈ ({ conversations :=
                    [{ conversation_id := 4, created_at := 0,
                       updated_at := 0 },
                     { conversation_id := 9, created_at := 1,
                       updated_at := 1 }],
                  messages :=
                    [{ message_id := 0, conversation_id := 4,
                       role := "human", content := ['x'],
                       created_at := 0 },
                     { message_id := 1, conversation_id := 9,
                       role := "ai", content := ['y'],
                       created_at := 1 }] }
                   : ChatDB).messages.filter
                (fun m => !(m.conversation_id == 9)))) :=
  ⟨⟨{ conversation_id := 9, created_at := 1, updated_at := 1 },
    by decide, rfl⟩,
   delete_conversation_spec
     { conversations :=
         [{ conversation_id := 4, created_at := 0, updated_at := 0 },
          { conversation_id := 9, created_at := 1, updated_at := 1 }],
       messages :=
         [{ message_id := 0, conversation_id := 4,
            role := "human", content := ['x'], created_at := 0 },
          { message_id := 1, conversation_id := 9,
            role := "ai", content := ['y'], created_at := 1 }] } 9
     ⟨{ conversation_id := 9, created_at := 1, updated_at := 1 },
      by decide, rfl⟩⟩

theorem save_message_ok (db : ChatDB) (cid : Nat) (role : String)
    (content : List Char) (message_id now : Nat)
    (h : role ∈ [roleHuman, roleAi, roleSystem]) :
    save_message db cid role content message_id now
      = Except.ok
          { conversations :=
              if db.conversations.any (fun c => c.conversation_id == cid) then
                db.conversations.map fun c =>
                  if c.conversation_id == cid then
                    { c with updated_at := now }
                  else c
              else
                db.conversations ++
                  [{ conversation_id := cid, created_at := now,
                     updated_at := now }],
            messages := db.messages ++
              [{ message_id := message_id, conversation_id := cid,
                 role := role, content := content, created_at := now }] } := by
  simp only [save_message, if_neg (not_not_intro h)]

/-- C10: every successful `ChatBot.chat` call appends exactly two
messages to the addressed conversation — first the human query, then
the ai response, in that order — and leaves the message sequence of
every other conversation unchanged, in RAG and non-RAG mode alike. -/
theorem chat_appends_exactly_two (use_rag : Bool)
    (rag_generate plain_chain : List Char → List Msg → List Char)
    (tok : Msg → Nat) (db : ChatDB) (cid : Nat) (query : List Char)
    (mid1 mid2 t1 t2 : Nat) (cid2 : Nat) (hne : cid2 ≠ cid) :
    ∃ db2 response,
      chat_bot_chat use_rag rag_generate plain_chain tok db cid query
          mid1 mid2 t1 t2 = Except.ok (db2, response)
      ∧ messagesOf db2 cid = messagesOf db cid ++
          [{ message_id := mid1, conversation_id := cid, role := roleHuman,
             content := query, created_at := t1 },
           { message_id := mid2, conversation_id := cid, role := roleAi,
             content := response, created_at := t2 }]
      ∧ messagesOf db2 cid2 = messagesOf db cid2 := by
  have hcc2 : (cid == cid2) = false := by
    simp only [beq_eq_false_iff_ne, ne_eq]
    exact fun hcontra => hne hcontra.symm
  have hhum : ∀ (d : ChatDB) (ct : List Char) (mi tt : Nat),
      save_message d cid roleHuman ct mi tt
        = Except.ok
            { conversations :=
                if d.conversations.any
                    (fun c => c.conversation_id == cid) then
                  d.conversations.map fun c =>
                    if c.conversation_id == cid then
                      { c with updated_at := tt }
                    else c
                else
                  d.conversations ++
                    [{ conversation_id := cid, created_at := tt,
                       updated_at := tt }],
              messages := d.messages ++
                [{ message_id := mi, conversation_id := cid,
                   role := roleHuman, content := ct, created_at := tt }] } :=
    fun d ct mi tt =>
      save_message_ok d cid roleHuman ct mi tt (List.mem_cons_self _ _)
  have hai : ∀ (d : ChatDB) (ct : List Char) (mi tt : Nat),
      save_message d cid roleAi ct mi tt
        = Except.ok
            { conversations :=
                if d.conversations.any
                    (fun c => c.conversation_id == cid) then
                  d.conversations.map fun c =>
                    if c.conversation_id == cid then
                      { c with updated_at := tt }
                    else c
                else
                  d.conversations ++
                    [{ conversation_id := cid, created_at := tt,
                       updated_at := tt }],
              messages := d.messages ++
                [{ message_id := mi, conversation_id := cid,
                   role := roleAi, content := ct, created_at := tt }] } :=
    fun d ct mi tt =>
      save_message_ok d cid roleAi ct mi tt
        (List.mem_cons_of_mem _ (List.mem_cons_self _ _))
  simp only [chat_bot_chat, hhum, hai]
  refine ⟨_, _, rfl, ?_, ?_⟩
  · simp [messagesOf, List.filter_append]
  · simp [messagesOf, List.filter_append, hcc2]

theorem chat_appends_witness :
    ((1 : Nat) ≠ 0)
    ∧ (∃ db2 response,
        chat_bot_chat true (fun _ _ => ['r']) (fun _ _ => ['p'])
            (fun _ => 1) { conversations := [], messages := [] } 0 ['q']
            10 11 5 6 = Except.ok (db2, response)
        ∧ messagesOf db2 0
            = messagesOf { conversations := [], messages := [] } 0 ++
              [{ message_id := 10, conversation_id := 0, role := roleHuman,
                 content := ['q'], created_at := 5 },
               { message_id := 11, conversation_id := 0, role := roleAi,
                 content := response, created_at := 6 }]
        ∧ messagesOf db2 1
            = messagesOf { conversations := [], messages := [] } 1) :=
  ⟨by decide,
   chat_appends_exactly_two true (fun _ _ => ['r']) (fun _ _ => ['p'])
     (fun _ => 1) { conversations := [], messages := [] } 0 ['q']
     10 11 5 6 1 (by decide)⟩

theorem tokensOf_append (tok : Msg → Nat) (a b : List Msg) :
    tokensOf tok (a ++ b) = tokensOf tok a + tokensOf tok b := by
  simp [tokensOf]

theorem dropOldest_suffix (tok : Msg → Nat) (budget sysTokens : Nat)
    (l : List Msg) :
    ∃ t, l = t ++ dropOldest tok budget sysTokens l := by
  induction l with
  | nil => exact ⟨[], rfl⟩
  | cons m ms ih =>
    by_cases h : sysTokens + tokensOf tok (m :: ms) ≤ budget
    · exact ⟨[], by simp [dropOldest, h]⟩
    · rcases ih with ⟨t, ht⟩
      refine ⟨m :: t, ?_⟩
      simp only [dropOldest, if_neg h, List.cons_append]
      exact congrArg (m :: ·) ht

theorem dropOldest_fits (tok : Msg → Nat) (budget sysTokens : Nat)
    (l : List Msg) :
    dropOldest tok budget sysTokens l = []
    ∨ sysTokens + tokensOf tok (dropOldest tok budget sysTokens l)
        ≤ budget := by
  induction l with
  | nil => exact Or.inl rfl
  | cons m ms ih =>
    by_cases h : sysTokens + tokensOf tok (m :: ms) ≤ budget
    · right
      simp only [dropOldest, if_pos h]
      exact h
    · simpa [dropOldest, h] using ih

theorem startOnHuman_suffix (l : List Msg) :
    ∃ t, l = t ++ startOnHuman l := by
  induction l with
  | nil => exact ⟨[], rfl⟩
  | cons m ms ih =>
    by_cases h : (m.role == Role.human) = true
    · exact ⟨[], by simp [startOnHuman, h]⟩
    · rcases ih with ⟨t, ht⟩
      refine ⟨m :: t, ?_⟩
      simp only [startOnHuman, if_neg h, List.cons_append]
      exact congrArg (m :: ·) ht

theorem startOnHuman_head (l : List Msg) (m : Msg)
    (hm : (startOnHuman l).head? = some m) : m.role = Role.human := by
  induction l with
  | nil => simp [startOnHuman] at hm
  | cons x xs ih =>
    by_cases h : (x.role == Role.human) = true
    · simp only [startOnHuman, if_pos h, List.head?_cons,
        Option.some.injEq] at hm
      subst hm
      exact beq_iff_eq.mp h
    · simp only [startOnHuman, if_neg h] at hm
      exact ih hm

/-- C6: for every conversation history, the trimming `ChatBot.chat`
applies before use keeps the window within the token budget (whenever
the retained system messages alone fit it), drops only the oldest
non-system turns (the kept window is a suffix of the non-system part),
retains every system message, and the remaining window starts on a
human message. -/
theorem trim_messages_spec (tok : Msg → Nat) (budget : Nat)
    (ms : List Msg)
    (hsys : tokensOf tok (ms.filter isSystemMsg) ≤ budget) :
    (∃ w, trim_messages tok budget ms = ms.filter isSystemMsg ++ w
      ∧ (∃ t, ms.filter (fun m => !isSystemMsg m) = t ++ w)
      ∧ (∀ m, w.head? = some m → m.role = Role.human)
      ∧ tokensOf tok (trim_messages tok budget ms) ≤ budget)
    ∧ ∀ m ∈ ms, isSystemMsg m = true → m ∈ trim_messages tok budget ms := by
  constructor
  · refine ⟨startOnHuman
      (dropOldest tok budget (tokensOf tok (ms.filter isSystemMsg))
        (ms.filter fun m => !isSystemMsg m)), rfl, ?_, ?_, ?_⟩
    · rcases dropOldest_suffix tok budget
        (tokensOf tok (ms.filter isSystemMsg))
        (ms.filter fun m => !isSystemMsg m) with ⟨t1, ht1⟩
      rcases startOnHuman_suffix
        (dropOldest tok budget (tokensOf tok (ms.filter isSystemMsg))
          (ms.filter fun m => !isSystemMsg m)) with ⟨t2, ht2⟩
      refine ⟨t1 ++ t2, ?_⟩
      rw [List.append_assoc, ← ht2, ← ht1]
    · intro m hm
      exact startOnHuman_head _ m hm
    · show tokensOf tok (ms.filter isSystemMsg ++ _) ≤ budget
      rw [tokensOf_append]
      rcases dropOldest_fits tok budget
        (tokensOf tok (ms.filter isSystemMsg))
        (ms.filter fun m => !isSystemMsg m) with hnil | hle
      · rw [hnil]
        simpa [startOnHuman, tokensOf] using hsys
      · rcases startOnHuman_suffix
          (dropOldest tok budget (tokensOf tok (ms.filter isSystemMsg))
            (ms.filter fun m => !isSystemMsg m)) with ⟨t2, ht2⟩
        have hw : tokensOf tok (startOnHuman
            (dropOldest tok budget (tokensOf tok (ms.filter isSystemMsg))
              (ms.filter fun m => !isSystemMsg m)))
            ≤ tokensOf tok (dropOldest tok budget
              (tokensOf tok (ms.filter isSystemMsg))
              (ms.filter fun m => !isSystemMsg m)) := by
          conv_rhs => rw [ht2, tokensOf_append]
          exact Nat.le_add_left _ _
        exact le_trans (Nat.add_le_add_left hw _) hle
  · intro m hm hsysm
    exact List.mem_append_left _ (List.mem_filter.mpr ⟨hm, hsysm⟩)

theorem trim_messages_witness :
    (tokensOf (fun _ => 1)
        (([{ role := Role.system, content := ['s'] },
           { role := Role.ai, content := ['a'] },
           { role := Role.human, content := ['h'] },
           { role := Role.ai, content := ['b'] }]
            : List Msg).filter isSystemMsg) ≤ 3)
    ∧ ((∃ w, trim_messages (fun _ => 1) 3
          [{ role := Role.system, content := ['s'] },
           { role := Role.ai, content := ['a'] },
           { role := Role.human, content := ['h'] },
           { role := Role.ai, content := ['b'] }]
          = ([{ role := Role.system, content := ['s'] },
              { role := Role.ai, content := ['a'] },
              { role := Role.human, content := ['h'] },
              { role := Role.ai, content := ['b'] }]
              : List Msg).filter isSystemMsg ++ w
        ∧ (∃ t, ([{ role := Role.system, content := ['s'] },
                  { role := Role.ai, content := ['a'] },
                  { role := Role.human, content := ['h'] },
                  { role := Role.ai, content := ['b'] }]
                  : List Msg).filter (fun m => !isSystemMsg m) = t ++ w)
        ∧ (∀ m, w.head? = some m → m.role = Role.human)
        ∧ tokensOf (fun _ => 1)
            (trim_messages (fun _ => 1) 3
              [{ role := Role.system, content := ['s'] },
               { role := Role.ai, content := ['a'] },
               { role := Role.human, content := ['h'] },
               { role := Role.ai, content := ['b'] }]) ≤ 3)
       ∧ ∀ m ∈ ([{ role := Role.system, content := ['s'] },
                 { role := Role.ai, content := ['a'] },
                 { role := Role.human, content := ['h'] },
                 { role := Role.ai, content := ['b'] }] : List Msg),
           isSystemMsg m = true →
           m ∈ trim_messages (fun _ => 1) 3
             [{ role := Role.system, content := ['s'] },
              { role := Role.ai, content := ['a'] },
              { role := Role.human, content := ['h'] },
              { role := Role.ai, content := ['b'] }]) :=
  ⟨by decide,
   trim_messages_spec (fun _ => 1) 3
     [{ role := Role.system, content := ['s'] },
      { role := Role.ai, content := ['a'] },
      { role := Role.human, content := ['h'] },
      { role := Role.ai, content := ['b'] }]
     (by decide)⟩

theorem splitPieces_le (size : Nat) (h1 : 1 ≤ size)
    (seps : List (List Char)) (hsep : [] ∈ seps) :
    ∀ (s p : List Char), p ∈ splitPieces size seps s → p.length ≤ size := by
  induction seps with
  | nil => cases hsep
  | cons sep rest ih =>
    intro s p hp
    by_cases hfit : s.length ≤ size
    · simp only [splitPieces, if_pos hfit, List.mem_singleton] at hp
      subst hp
      exact hfit
    · simp only [splitPieces, if_neg hfit, List.mem_flatMap] at hp
      rcases hp with ⟨q, hq, hpq⟩
      by_cases hqfit : q.length ≤ size
      · simp only [if_pos hqfit, List.mem_singleton] at hpq
        subst hpq
        exact hqfit
      · simp only [if_neg hqfit] at hpq
        rcases List.mem_cons.mp hsep with hnil | hrest
        · exfalso
          rw [← hnil] at hq
          simp only [splitKeepSep, List.isEmpty_nil, if_pos,
            List.mem_map] at hq
          rcases hq with ⟨c, _, hc⟩
          apply hqfit
          rw [← hc]
          exact h1
        · exact ih hrest q p hpq

theorem mergeChunks_head (size overlap : Nat) (ps : List (List Char))
    (current : List Char) :
    mergeChunks size overlap current ps = []
    ∨ ∃ r, (mergeChunks size overlap current ps).head?
        = some (current ++ r) := by
  induction ps generalizing current with
  | nil =>
    by_cases h : current.isEmpty
    · left
      simp [mergeChunks, h]
    · right
      exact ⟨[], by simp [mergeChunks, h]⟩
  | cons p ps ih =>
    by_cases hemp : current.isEmpty
    · have hcur : current = [] := by
        cases current
        · rfl
        · simp at hemp
      rcases ih p with hnil | ⟨r, hr⟩
      · left
        simpa [mergeChunks, hemp] using hnil
      · right
        refine ⟨p ++ r, ?_⟩
        rw [hcur]
        simpa [mergeChunks] using hr
    · by_cases hfit : current.length + p.length ≤ size
      · rcases ih (current ++ p) with hnil | ⟨r, hr⟩
        · left
          simpa [mergeChunks, hemp, hfit] using hnil
        · right
          refine ⟨p ++ r, ?_⟩
          rw [← List.append_assoc]
          simpa [mergeChunks, hemp, hfit] using hr
      · right
        exact ⟨[], by simp [mergeChunks, hemp, hfit]⟩

theorem mergeChunks_chain (size overlap : Nat) (ps : List (List Char))
    (current : List Char) :
    List.Chain' (fun a b => ∃ r, b = lastN overlap a ++ r)
      (mergeChunks size overlap current ps) := by
  induction ps generalizing current with
  | nil =>
    by_cases h : current.isEmpty <;> simp [mergeChunks, h]
  | cons p ps ih =>
    by_cases hemp : current.isEmpty
    · simpa [mergeChunks, hemp] using ih p
    · by_cases hfit : current.length + p.length ≤ size
      · simpa [mergeChunks, hemp, hfit] using ih (current ++ p)
      · simp only [mergeChunks, if_neg hemp, if_neg hfit]
        rw [List.chain'_cons']
        constructor
        · intro b hb
          rcases mergeChunks_head size overlap ps
            (lastN overlap current ++ p) with hnil | ⟨r, hr⟩
          · rw [hnil] at hb
            simp at hb
          · rw [hr] at hb
            simp only [Option.mem_def, Option.some.injEq] at hb
            exact ⟨p ++ r, by rw [← hb, List.append_assoc]⟩
        · exact ih _

/-- C7: `split_documents` on the empty document list returns the empty
list with no error; splitting recursively tries the separator priority
list (paragraph break, line break, sentence-terminal punctuation,
comma, space, character boundary) — a text already within `chunk_size`
is kept whole, and every produced piece is within `chunk_size` — and
consecutive chunks of a split text overlap: each next chunk starts with
the trailing `chunk_overlap` characters of the previous one. -/
theorem split_documents_spec (chunk_size chunk_overlap : Nat)
    (s p : List Char) (d : Document) (hsize : 1 ≤ chunk_size)
    (hp : p ∈ splitPieces chunk_size SEPARATORS s) :
    split_documents [] chunk_size chunk_overlap = []
    ∧ p.length ≤ chunk_size
    ∧ (s.length ≤ chunk_size → splitPieces chunk_size SEPARATORS s = [s])
    ∧ List.Chain' (fun a b => ∃ r, b = lastN chunk_overlap a ++ r)
        (split_text chunk_size chunk_overlap s)
    ∧ split_documents [d] chunk_size chunk_overlap
        = (split_text chunk_size chunk_overlap d.page_content).map
            fun cs => { page_content := cs, source := d.source } := by
  refine ⟨rfl, ?_, ?_, ?_, ?_⟩
  · exact splitPieces_le chunk_size hsize SEPARATORS (by simp [SEPARATORS])
      s p hp
  · intro hfit
    simp [SEPARATORS, splitPieces, hfit]
  · exact mergeChunks_chain chunk_size chunk_overlap _ []
  · simp [split_documents]

theorem split_documents_witness :
    (1 ≤ 1000
     ∧ ['a'] ∈ splitPieces 1000 SEPARATORS ['a'])
    ∧ (split_documents [] 1000 200 = []
       ∧ (['a'] : List Char).length ≤ 1000
       ∧ ((['a'] : List Char).length ≤ 1000 →
            splitPieces 1000 SEPARATORS ['a'] = [['a']])
       ∧ List.Chain' (fun a b => ∃ r, b = lastN 200 a ++ r)
           (split_text 1000 200 ['a'])
       ∧ split_documents [{ page_content := ['a', 'b'], source := 3 }]
             1000 200
           = (split_text 1000 200
               ({ page_content := ['a', 'b'], source := 3 }
                 : Document).page_content).map
               fun cs => { page_content := cs, source :=
                 ({ page_content := ['a', 'b'], source := 3 }
                   : Document).source }) :=
  ⟨⟨by decide, by decide⟩,
   split_documents_spec 1000 200 ['a'] ['a']
     { page_content := ['a', 'b'], source := 3 }
     (by decide) (by decide)⟩
